import Mathlib

/-!
Shallow embedding of the yupsh/capture pipeline sink (src/command.go).

The Go package holds a `command` struct with two `io.Writer` fields
(`stdout`, `stderr`); `Capture` stores them unvalidated; `Executor` returns
a closure `func(ctx, stdin, _, _ io.Writer) error` that runs
`io.Copy(c.stdout, stdin)` and, on error, writes
`"capture: " + err.Error() + "\n"` to `c.stderr` when that field is non-nil,
then returns the original error.

Modelling choices:
* A byte is a `Nat` (the sink moves bytes opaquely, never inspecting them).
* An `io.Reader` is a finite list of read results (`ReadStep`): each `Read`
  call yields a chunk of bytes together with an optional terminating
  condition (`eof`, or an error carrying its description bytes).  An
  exhausted list behaves like EOF.  This mirrors the `io.Reader` contract
  that `io.Copy` consumes: bytes first, then the error of the same call.
* An `io.Writer` is a `WriterState`: the bytes successfully written so far
  plus a `plan` scripting the outcome of each future `Write` call (an empty
  plan means every write succeeds).  A failing write records no bytes.
* Writers live in a `Store` indexed by handles, so two fields of the
  command can alias the same underlying writer, exactly as two `io.Writer`
  interface values can reference one object in Go.
* `io.Copy` is embedded by `ioCopy`, following its documented contract:
  repeatedly read a chunk, write the whole chunk to the destination (a
  write error aborts with that error), stop successfully on EOF, abort with
  the read error otherwise.
* The `context.Context` parameter is embedded as `Context` (its cancelled
  flag); the source binds it but never uses it, and the embedding mirrors
  that.  The two writer parameters the framework passes are likewise bound
  and unused (`_, _ io.Writer` in the source).
* Errors are identified by their description bytes (`err.Error()` encoded
  as bytes), since only that description is observable in the output.
* The normal destination is modelled as always present: passing a nil
  writer there makes the Go program panic inside `io.Copy`, which no claim
  touches; the error destination is `Option` because the source
  nil-checks it.
-/

namespace YCapture

/-- A byte; the sink treats bytes opaquely, so plain `Nat` suffices. -/
abbrev Byte := Nat

/-- Scripted outcome of one future `Write` call on a destination:
either the whole chunk is accepted, or the call fails with an error
description and records nothing. -/
inductive WriteResult where
  | ok : WriteResult
  | fail : List Byte → WriteResult
deriving DecidableEq

/-- The observable state of one `io.Writer`: the bytes successfully written
so far, and the script for future `Write` calls (empty script: all writes
succeed). -/
structure WriterState where
  content : List Byte
  plan : List WriteResult
deriving DecidableEq

/-- One `Write` call: consume the head of the plan (an exhausted plan means
success), append the chunk on success, return the error on failure. -/
def WriterState.write (w : WriterState) (data : List Byte) :
    WriterState × Option (List Byte) :=
  match w.plan with
  | [] => (⟨w.content ++ data, []⟩, none)
  | WriteResult.ok :: rest => (⟨w.content ++ data, rest⟩, none)
  | WriteResult.fail e :: rest => (⟨w.content, rest⟩, some e)

/-- The terminating condition a `Read` call can report alongside its bytes:
`io.EOF`, or a genuine read error carrying its description. -/
inductive ReadErr where
  | eof : ReadErr
  | msg : List Byte → ReadErr
deriving DecidableEq

/-- One `Read` result: the chunk of bytes delivered by the call (possibly
empty) and the condition, if any, reported by the same call. -/
structure ReadStep where
  data : List Byte
  err : Option ReadErr
deriving DecidableEq

/-- The heap of writers: each handle of type `ι` references one writer.
Distinct handles are independent writers; the command's two fields may hold
the same handle (aliasing). -/
def Store (ι : Type) := ι → WriterState

/-- Replace the writer referenced by handle `i`. -/
def Store.update {ι : Type} [DecidableEq ι] (store : Store ι) (i : ι)
    (w : WriterState) : Store ι :=
  fun j => if j = i then w else store j

/-- A store of fresh writers: nothing written yet, every write succeeds. -/
def freshStore (ι : Type) : Store ι := fun _ => ⟨[], []⟩

/-- One iteration of the `io.Copy` loop body up to the write: if the read
delivered bytes, write them to `dst` and surface the write error, if any. -/
def ioCopyStep {ι : Type} [DecidableEq ι] (dst : ι) (s : ReadStep)
    (store : Store ι) : Store ι × Option (List Byte) :=
  if s.data.isEmpty then (store, none)
  else
    let wr := (store dst).write s.data
    (store.update dst wr.1, wr.2)

/-- `io.Copy(dst, src)` over the scripted reader: per read, write the chunk
(a write error aborts with it), then stop on EOF (success), abort on a read
error, or continue.  Returns the final store and the copy error, if any. -/
def ioCopy {ι : Type} [DecidableEq ι] (dst : ι) :
    List ReadStep → Store ι → Store ι × Option (List Byte)
  | [], store => (store, none)
  | s :: rest, store =>
    let a := ioCopyStep dst s store
    match a.2 with
    | some e => (a.1, some e)
    | none =>
      match s.err with
      | none => ioCopy dst rest a.1
      | some ReadErr.eof => (a.1, none)
      | some (ReadErr.msg e) => (a.1, some e)

/-- The ambient `context.Context`, reduced to its observable cancellation
flag (the source never consults it). -/
structure Context where
  cancelled : Bool
deriving DecidableEq

/-- The `command` struct of src/command.go: the two destination handles
stored at construction.  `stderr` is optional because the source nil-checks
it before use. -/
structure command (ι : Type) where
  stdout : ι
  stderr : Option ι

/-- `Capture(stdout, stderr)`: store both destinations as-is, without
validation. -/
def Capture {ι : Type} (stdout : ι) (stderr : Option ι) : command ι :=
  { stdout := stdout, stderr := stderr }

/-- The bytes of the literal diagnostic tag `"capture: "`. -/
def captureTag : List Byte := "capture: ".data.map Char.toNat

/-- The bytes of the diagnostic line `"capture: " + err.Error() + "\n"`. -/
def diagBytes (e : List Byte) : List Byte := captureTag ++ e ++ [10]

/-- The closure returned by `command.Executor`: copy `stdin` to the stored
`stdout`; on a copy error, write the diagnostic line to the stored `stderr`
when present (discarding that write's own outcome) and return the original
error.  `ctx` and the two framework-supplied writers `outW`, `errW` are
bound but unused, as in the source (`func(ctx, stdin, _, _ io.Writer)`). -/
def command.Executor {ι : Type} [DecidableEq ι] (c : command ι)
    (ctx : Context) (stdin : List ReadStep) (outW errW : ι)
    (store : Store ι) : Store ι × Option (List Byte) :=
  let r := ioCopy c.stdout stdin store
  match r.2 with
  | none => (r.1, none)
  | some e =>
    match c.stderr with
    | none => (r.1, some e)
    | some sid =>
      let wr := (r.1 sid).write (diagBytes e)
      ((r.1).update sid wr.1, some e)

/-- The bytes the scripted reader delivers before the copy stops: chunks of
all steps up to and including the first step carrying a condition. -/
def copiedBytes : List ReadStep → List Byte
  | [] => []
  | s :: rest =>
    s.data ++ (match s.err with
      | none => copiedBytes rest
      | some _ => [])

/-- The error `io.Copy` reports for the scripted reader when every write
succeeds: the first read error before any EOF, if one exists. -/
def copyErr : List ReadStep → Option (List Byte)
  | [] => none
  | s :: rest =>
    match s.err with
    | none => copyErr rest
    | some ReadErr.eof => none
    | some (ReadErr.msg e) => some e

/-! ### Basic lemmas about the store and the copy loop -/

theorem Store.update_self {ι : Type} [DecidableEq ι] (store : Store ι)
    (i : ι) (w : WriterState) : store.update i w i = w := by
  simp [Store.update]

theorem Store.update_other {ι : Type} [DecidableEq ι] (store : Store ι)
    (i j : ι) (w : WriterState) (h : j ≠ i) : store.update i w j = store j := by
  simp [Store.update, h]

/-- A single copy iteration touches no writer other than the destination. -/
theorem ioCopyStep_frame {ι : Type} [DecidableEq ι] (dst : ι) (s : ReadStep)
    (store : Store ι) (j : ι) (hj : j ≠ dst) :
    (ioCopyStep dst s store).1 j = store j := by
  unfold ioCopyStep
  split
  · rfl
  · exact Store.update_other store dst j _ hj

/-- The copy loop touches no writer other than the destination. -/
theorem ioCopy_frame {ι : Type} [DecidableEq ι] (dst : ι)
    (steps : List ReadStep) (store : Store ι) (j : ι) (hj : j ≠ dst) :
    (ioCopy dst steps store).1 j = store j := by
  induction steps generalizing store with
  | nil => rfl
  | cons s rest ih =>
    unfold ioCopy
    have hstep := ioCopyStep_frame dst s store j hj
    cases ha : (ioCopyStep dst s store).2 with
    | some e => simpa [ha] using hstep
    | none =>
      cases herr : s.err with
      | none => simpa [ha, herr] using (ih (ioCopyStep dst s store).1).trans hstep
      | some c => cases c <;> simpa [ha, herr] using hstep

/-- A copy iteration against an always-accepting destination succeeds and
appends the chunk. -/
theorem ioCopyStep_ok {ι : Type} [DecidableEq ι] (dst : ι) (s : ReadStep)
    (store : Store ι) (hp : (store dst).plan = []) :
    (ioCopyStep dst s store).2 = none ∧
      ((ioCopyStep dst s store).1 dst).content = (store dst).content ++ s.data ∧
      ((ioCopyStep dst s store).1 dst).plan = [] := by
  unfold ioCopyStep
  by_cases hd : s.data.isEmpty
  · have : s.data = [] := List.isEmpty_iff.mp hd
    simp [hd, this, hp]
  · simp only [hd, if_false]
    unfold WriterState.write
    rw [hp]
    simp [Store.update_self]

/-- Characterization of `io.Copy` against an always-accepting destination:
it appends exactly `copiedBytes` to the destination, leaves the plan empty,
and reports `copyErr`. -/
theorem ioCopy_ok {ι : Type} [DecidableEq ι] (dst : ι)
    (steps : List ReadStep) (store : Store ι) (hp : (store dst).plan = []) :
    ((ioCopy dst steps store).1 dst).content =
        (store dst).content ++ copiedBytes steps ∧
      ((ioCopy dst steps store).1 dst).plan = [] ∧
      (ioCopy dst steps store).2 = copyErr steps := by
  induction steps generalizing store with
  | nil => simpa [ioCopy, copiedBytes, copyErr] using hp
  | cons s rest ih =>
    obtain ⟨h2, hc, hpl⟩ := ioCopyStep_ok dst s store hp
    unfold ioCopy
    simp only [h2]
    cases herr : s.err with
    | none =>
      obtain ⟨ihc, ihp, ihe⟩ := ih (ioCopyStep dst s store).1 hpl
      refine ⟨?_, ihp, ?_⟩
      · rw [ihc, hc, List.append_assoc]
        simp [copiedBytes, herr]
      · rw [ihe]; simp [copyErr, herr]
    | some c =>
      cases c with
      | eof =>
        refine ⟨?_, hpl, ?_⟩
        · rw [hc]; simp [copiedBytes, herr]
        · simp [copyErr, herr]
      | msg e =>
        refine ⟨?_, hpl, ?_⟩
        · rw [hc]; simp [copiedBytes, herr]
        · simp [copyErr, herr]

/-- When the copy succeeds, the executor returns the copy's store and no
error: no diagnostic is written. -/
theorem Executor_copyOk {ι : Type} [DecidableEq ι] (c : command ι)
    (ctx : Context) (stdin : List ReadStep) (outW errW : ι) (store : Store ι)
    (h : (ioCopy c.stdout stdin store).2 = none) :
    c.Executor ctx stdin outW errW store =
      ((ioCopy c.stdout stdin store).1, none) := by
  unfold command.Executor
  simp only [h]

/-- When the copy fails and no error destination is configured, the
executor returns the copy's result unchanged. -/
theorem Executor_fail_none {ι : Type} [DecidableEq ι] (c : command ι)
    (ctx : Context) (stdin : List ReadStep) (outW errW : ι) (store : Store ι)
    (hs : c.stderr = none) :
    c.Executor ctx stdin outW errW store = ioCopy c.stdout stdin store := by
  unfold command.Executor
  cases h : (ioCopy c.stdout stdin store).2 with
  | none => simp only [h]; rw [← h]
  | some e => simp only [h, hs]; rw [← h]

/-- When the copy fails and an error destination is configured, the
executor issues the diagnostic write on it, discards that write's outcome
and returns the original error. -/
theorem Executor_fail_some {ι : Type} [DecidableEq ι] (c : command ι)
    (ctx : Context) (stdin : List ReadStep) (outW errW : ι) (store : Store ι)
    (e : List Byte) (sid : ι)
    (h : (ioCopy c.stdout stdin store).2 = some e)
    (hs : c.stderr = some sid) :
    c.Executor ctx stdin outW errW store =
      ((ioCopy c.stdout stdin store).1.update sid
        (((ioCopy c.stdout stdin store).1 sid).write (diagBytes e)).1,
       some e) := by
  unfold command.Executor
  simp only [h, hs]

/-- A reader none of whose steps carries a read error makes the copy
finish without error. -/
theorem copyErr_eq_none {steps : List ReadStep}
    (h : ∀ s ∈ steps, ∀ e, s.err ≠ some (ReadErr.msg e)) :
    copyErr steps = none := by
  induction steps with
  | nil => rfl
  | cons s rest ih =>
    unfold copyErr
    cases herr : s.err with
    | none => exact ih fun t ht => h t (List.mem_cons_of_mem s ht)
    | some c =>
      cases c with
      | eof => rfl
      | msg e => exact absurd herr (h s (List.mem_cons_self s rest) e)

/-! ### Witness fixtures: concrete readers and stores over `Nat` handles -/

/-- Demo reader: the bytes of "hi", then "!" delivered together with EOF. -/
def stepsOk : List ReadStep :=
  [⟨[104, 105], none⟩, ⟨[33], some ReadErr.eof⟩]

/-- Demo reader: the bytes of "pa", then a read error described by the
bytes of "boom". -/
def stepsBad : List ReadStep :=
  [⟨[112, 97], none⟩, ⟨[], some (ReadErr.msg [98, 111, 111, 109])⟩]

/-- Demo store over `Nat` handles whose writer 1 fails its first write
with description byte 120; every other writer is fresh. -/
def brokenStderrStore : Store Nat :=
  fun i => if i = 1 then ⟨[], [WriteResult.fail [120]]⟩ else ⟨[], []⟩

/-! ### Claim theorems -/

/-- Claim C1: for every input byte sequence (including the empty one), if
every read from the input succeeds and every write to the normal
destination succeeds, the executor writes exactly the input's bytes, in
order and unmodified, to the normal destination and returns success. -/
theorem C1_copies_exactly {ι : Type} [DecidableEq ι] (c : command ι)
    (ctx : Context) (stdin : List ReadStep) (outW errW : ι) (store : Store ι)
    (hplan : (store c.stdout).plan = [])
    (hcontent : (store c.stdout).content = [])
    (hreads : ∀ s ∈ stdin, ∀ e, s.err ≠ some (ReadErr.msg e)) :
    ((c.Executor ctx stdin outW errW store).1 c.stdout).content =
        copiedBytes stdin ∧
      (c.Executor ctx stdin outW errW store).2 = none := by
  obtain ⟨hc, hpl, he⟩ := ioCopy_ok c.stdout stdin store hplan
  have hnone : (ioCopy c.stdout stdin store).2 = none :=
    he.trans (copyErr_eq_none hreads)
  rw [Executor_copyOk c ctx stdin outW errW store hnone]
  exact ⟨by rw [hc, hcontent]; simp, rfl⟩

/-- Witness for C1 on the demo reader `stepsOk`. -/
theorem C1_witness :
    (((Capture 0 (some 1) : command Nat).Executor ⟨false⟩ stepsOk 2 3
          (freshStore Nat)).1 0).content = copiedBytes stepsOk ∧
      ((Capture 0 (some 1) : command Nat).Executor ⟨false⟩ stepsOk 2 3
          (freshStore Nat)).2 = none :=
  C1_copies_exactly (Capture 0 (some 1)) ⟨false⟩ stepsOk 2 3 (freshStore Nat)
    rfl rfl (by simp [stepsOk])

/-- Claim C6: for every execution that succeeds, nothing is written to the
error destination (when it is a handle distinct from the normal one). -/
theorem C6_success_frames_stderr {ι : Type} [DecidableEq ι] (c : command ι)
    (ctx : Context) (stdin : List ReadStep) (outW errW : ι) (store : Store ι)
    (sid : ι)
    (hsucc : (c.Executor ctx stdin outW errW store).2 = none)
    (hs : c.stderr = some sid)
    (hne : sid ≠ c.stdout) :
    (c.Executor ctx stdin outW errW store).1 sid = store sid := by
  cases h : (ioCopy c.stdout stdin store).2 with
  | none =>
    rw [Executor_copyOk c ctx stdin outW errW store h]
    exact ioCopy_frame c.stdout stdin store sid hne
  | some e =>
    rw [Executor_fail_some c ctx stdin outW errW store e sid h hs] at hsucc
    exact absurd hsucc (by simp)

/-- Witness for C6 on the demo reader `stepsOk`. -/
theorem C6_witness :
    ((Capture 0 (some 1) : command Nat).Executor ⟨false⟩ stepsOk 2 3
        (freshStore Nat)).1 1 = freshStore Nat 1 :=
  C6_success_frames_stderr (Capture 0 (some 1)) ⟨false⟩ stepsOk 2 3
    (freshStore Nat) 1 (by decide) rfl (by decide)

/-- Claim C2: for every execution whose copy fails with error description
`e`, with a writable error destination distinct from the normal one, the
executor appends exactly the single diagnostic line
`"capture: " ++ e ++ "\n"` to the error destination and returns the
original failure. -/
theorem C2_diagnostic_line {ι : Type} [DecidableEq ι] (c : command ι)
    (ctx : Context) (stdin : List ReadStep) (outW errW : ι) (store : Store ι)
    (e : List Byte) (sid : ι)
    (hcopy : (ioCopy c.stdout stdin store).2 = some e)
    (hs : c.stderr = some sid)
    (hne : sid ≠ c.stdout)
    (hplan : (store sid).plan = []) :
    ((c.Executor ctx stdin outW errW store).1 sid).content =
        (store sid).content ++ diagBytes e ∧
      (c.Executor ctx stdin outW errW store).2 = some e := by
  rw [Executor_fail_some c ctx stdin outW errW store e sid hcopy hs]
  refine ⟨?_, rfl⟩
  dsimp only
  rw [Store.update_self]
  have hfr : (ioCopy c.stdout stdin store).1 sid = store sid :=
    ioCopy_frame c.stdout stdin store sid hne
  rw [hfr]
  unfold WriterState.write
  rw [hplan]

/-- Witness for C2 on the demo reader `stepsBad`, whose read error is
described by the bytes of "boom". -/
theorem C2_witness :
    (((Capture 0 (some 1) : command Nat).Executor ⟨false⟩ stepsBad 2 3
          (freshStore Nat)).1 1).content =
        (freshStore Nat 1).content ++ diagBytes [98, 111, 111, 109] ∧
      ((Capture 0 (some 1) : command Nat).Executor ⟨false⟩ stepsBad 2 3
          (freshStore Nat)).2 = some [98, 111, 111, 109] :=
  C2_diagnostic_line (Capture 0 (some 1)) ⟨false⟩ stepsBad 2 3
    (freshStore Nat) [98, 111, 111, 109] 1 (by decide) rfl (by decide) rfl

/-- Claim C3: when the copy fails with `e` and the diagnostic write to the
error destination itself fails with `e2`, the executor still returns the
original failure `e`, never the secondary one. -/
theorem C3_secondary_failure_ignored {ι : Type} [DecidableEq ι]
    (c : command ι) (ctx : Context) (stdin : List ReadStep) (outW errW : ι)
    (store : Store ι) (e e2 : List Byte) (sid : ι)
    (hcopy : (ioCopy c.stdout stdin store).2 = some e)
    (hs : c.stderr = some sid)
    (hfail : (((ioCopy c.stdout stdin store).1 sid).write (diagBytes e)).2 =
      some e2)
    (hdiff : e2 ≠ e) :
    (c.Executor ctx stdin outW errW store).2 = some e ∧
      (c.Executor ctx stdin outW errW store).2 ≠ some e2 := by
  rw [Executor_fail_some c ctx stdin outW errW store e sid hcopy hs]
  exact ⟨rfl, by simpa using fun h => hdiff h.symm⟩

/-- Witness for C3: reader `stepsBad` fails with "boom" and writer 1 of
`brokenStderrStore` fails the diagnostic write with byte 120; the original
failure is still the one returned. -/
theorem C3_witness :
    ((Capture 0 (some 1) : command Nat).Executor ⟨false⟩ stepsBad 2 3
        brokenStderrStore).2 = some [98, 111, 111, 109] ∧
      ((Capture 0 (some 1) : command Nat).Executor ⟨false⟩ stepsBad 2 3
          brokenStderrStore).2 ≠ some [120] :=
  C3_secondary_failure_ignored (Capture 0 (some 1)) ⟨false⟩ stepsBad 2 3
    brokenStderrStore [98, 111, 111, 109] [120] 1 (by decide) rfl (by decide)
    (by decide)

/-- Claim C5: the executor ignores the two writer parameters the host
framework passes: its result does not depend on them, and no handle other
than the two destinations stored at construction is ever written. -/
theorem C5_ignores_framework_writers {ι : Type} [DecidableEq ι]
    (c : command ι) (ctx : Context) (stdin : List ReadStep)
    (outW errW outW2 errW2 : ι) (store : Store ι) (j : ι)
    (hj1 : j ≠ c.stdout)
    (hj2 : ∀ sid, c.stderr = some sid → j ≠ sid) :
    c.Executor ctx stdin outW errW store =
        c.Executor ctx stdin outW2 errW2 store ∧
      (c.Executor ctx stdin outW errW store).1 j = store j := by
  refine ⟨rfl, ?_⟩
  cases h : (ioCopy c.stdout stdin store).2 with
  | none =>
    rw [Executor_copyOk c ctx stdin outW errW store h]
    exact ioCopy_frame c.stdout stdin store j hj1
  | some e =>
    cases hs : c.stderr with
    | none =>
      rw [Executor_fail_none c ctx stdin outW errW store hs]
      exact ioCopy_frame c.stdout stdin store j hj1
    | some sid =>
      rw [Executor_fail_some c ctx stdin outW errW store e sid h hs]
      dsimp only
      rw [Store.update_other _ _ _ _ (hj2 sid hs)]
      exact ioCopy_frame c.stdout stdin store j hj1

/-- Witness for C5: handle 2 is what the framework passes as stdout; it is
untouched, and swapping the framework-passed handles changes nothing. -/
theorem C5_witness :
    (Capture 0 (some 1) : command Nat).Executor ⟨false⟩ stepsOk 2 3
          (freshStore Nat) =
        (Capture 0 (some 1) : command Nat).Executor ⟨false⟩ stepsOk 7 8
          (freshStore Nat) ∧
      ((Capture 0 (some 1) : command Nat).Executor ⟨false⟩ stepsOk 2 3
          (freshStore Nat)).1 2 = freshStore Nat 2 :=
  C5_ignores_framework_writers (Capture 0 (some 1)) ⟨false⟩ stepsOk 2 3 7 8
    (freshStore Nat) 2 (by decide)
    (by intro sid hsid; injection hsid with h; subst h; decide)

/-- Claim C7: when the input yields a prefix of bytes and then a read
error, the prefix stays written to the normal destination, the error
destination holds exactly the diagnostic line, and the outcome is the
failure. -/
theorem C7_partial_then_error {ι : Type} [DecidableEq ι] (c : command ι)
    (ctx : Context) (stdin : List ReadStep) (outW errW : ι) (store : Store ι)
    (e : List Byte) (sid : ι)
    (hplanOut : (store c.stdout).plan = [])
    (hcontOut : (store c.stdout).content = [])
    (hs : c.stderr = some sid)
    (hne : sid ≠ c.stdout)
    (hplanErr : (store sid).plan = [])
    (hcontErr : (store sid).content = [])
    (hfail : copyErr stdin = some e) :
    ((c.Executor ctx stdin outW errW store).1 c.stdout).content =
        copiedBytes stdin ∧
      ((c.Executor ctx stdin outW errW store).1 sid).content = diagBytes e ∧
      (c.Executor ctx stdin outW errW store).2 = some e := by
  obtain ⟨hc, hpl, he⟩ := ioCopy_ok c.stdout stdin store hplanOut
  have hcopy : (ioCopy c.stdout stdin store).2 = some e := he.trans hfail
  rw [Executor_fail_some c ctx stdin outW errW store e sid hcopy hs]
  dsimp only
  refine ⟨?_, ?_, rfl⟩
  · rw [Store.update_other _ _ _ _ (fun h => hne h.symm), hc, hcontOut]
    simp
  · rw [Store.update_self]
    have hfr : (ioCopy c.stdout stdin store).1 sid = store sid :=
      ioCopy_frame c.stdout stdin store sid hne
    rw [hfr]
    unfold WriterState.write
    rw [hplanErr]
    dsimp only
    rw [hcontErr]
    simp

/-- Witness for C7 on the demo reader `stepsBad`: the prefix "pa" stays in
the normal destination and the diagnostic for "boom" is in the error one. -/
theorem C7_witness :
    (((Capture 0 (some 1) : command Nat).Executor ⟨false⟩ stepsBad 2 3
          (freshStore Nat)).1 0).content = copiedBytes stepsBad ∧
      (((Capture 0 (some 1) : command Nat).Executor ⟨false⟩ stepsBad 2 3
          (freshStore Nat)).1 1).content = diagBytes [98, 111, 111, 109] ∧
      ((Capture 0 (some 1) : command Nat).Executor ⟨false⟩ stepsBad 2 3
          (freshStore Nat)).2 = some [98, 111, 111, 109] :=
  C7_partial_then_error (Capture 0 (some 1)) ⟨false⟩ stepsBad 2 3
    (freshStore Nat) [98, 111, 111, 109] 1 rfl rfl rfl (by decide) rfl rfl
    (by decide)

/-- Claim C8: with the two destinations aliased to one writable handle,
that handle ends holding all copied content in order, followed by the
diagnostic line exactly when the copy fails. -/
theorem C8_aliased_order {ι : Type} [DecidableEq ι] (c : command ι)
    (ctx : Context) (stdin : List ReadStep) (outW errW : ι) (store : Store ι)
    (hs : c.stderr = some c.stdout)
    (hplan : (store c.stdout).plan = [])
    (hcont : (store c.stdout).content = []) :
    ((c.Executor ctx stdin outW errW store).1 c.stdout).content =
      copiedBytes stdin ++
        (match copyErr stdin with
          | none => []
          | some e => diagBytes e) := by
  obtain ⟨hc, hpl, he⟩ := ioCopy_ok c.stdout stdin store hplan
  cases hce : copyErr stdin with
  | none =>
    have hcopy : (ioCopy c.stdout stdin store).2 = none := he.trans hce
    rw [Executor_copyOk c ctx stdin outW errW store hcopy]
    dsimp only
    rw [hc, hcont]
    simp
  | some e =>
    have hcopy : (ioCopy c.stdout stdin store).2 = some e := he.trans hce
    rw [Executor_fail_some c ctx stdin outW errW store e c.stdout hcopy hs]
    dsimp only
    rw [Store.update_self]
    unfold WriterState.write
    rw [hpl]
    dsimp only
    rw [hc, hcont]
    simp

/-- Witness for C8: destinations aliased to handle 0 and reader
`stepsBad`; the handle holds "pa" followed by the diagnostic for "boom". -/
theorem C8_witness :
    (((Capture 0 (some 0) : command Nat).Executor ⟨false⟩ stepsBad 2 3
          (freshStore Nat)).1 0).content =
      copiedBytes stepsBad ++ diagBytes [98, 111, 111, 109] :=
  C8_aliased_order (Capture 0 (some 0)) ⟨false⟩ stepsBad 2 3 (freshStore Nat)
    rfl rfl rfl

/-- Claim C10: with a nil error destination, a failing execution performs
the copy, skips the diagnostic write entirely and still returns the copy's
outcome — the executor equals the bare copy. -/
theorem C10_nil_stderr {ι : Type} [DecidableEq ι] (c : command ι)
    (ctx : Context) (stdin : List ReadStep) (outW errW : ι) (store : Store ι)
    (hs : c.stderr = none) :
    c.Executor ctx stdin outW errW store = ioCopy c.stdout stdin store :=
  Executor_fail_none c ctx stdin outW errW store hs

/-- Witness for C10 with the failing reader `stepsBad` and no error
destination. -/
theorem C10_witness :
    (Capture 0 none : command Nat).Executor ⟨false⟩ stepsBad 2 3
        (freshStore Nat) = ioCopy 0 stepsBad (freshStore Nat) :=
  C10_nil_stderr (Capture 0 none) ⟨false⟩ stepsBad 2 3 (freshStore Nat) rfl

/-- Characterization of an execution against fresh, distinct destinations:
the normal destination ends with exactly the copied bytes, the error
destination with the diagnostic line exactly when the copy fails, and the
outcome is the copy's error.  All three depend only on the reader script. -/
theorem Executor_fresh_char {ι : Type} [DecidableEq ι] (c : command ι)
    (ctx : Context) (stdin : List ReadStep) (outW errW : ι) (sid : ι)
    (hs : c.stderr = some sid) (hne : sid ≠ c.stdout) :
    ((c.Executor ctx stdin outW errW (freshStore ι)).1 c.stdout).content =
        copiedBytes stdin ∧
      ((c.Executor ctx stdin outW errW (freshStore ι)).1 sid).content =
        (match copyErr stdin with
          | none => []
          | some e => diagBytes e) ∧
      (c.Executor ctx stdin outW errW (freshStore ι)).2 = copyErr stdin := by
  obtain ⟨hc, hpl, he⟩ := ioCopy_ok c.stdout stdin (freshStore ι) rfl
  cases hce : copyErr stdin with
  | none =>
    have hcopy : (ioCopy c.stdout stdin (freshStore ι)).2 = none :=
      he.trans hce
    rw [Executor_copyOk c ctx stdin outW errW (freshStore ι) hcopy]
    dsimp only
    refine ⟨by rw [hc]; rfl, ?_, rfl⟩
    rw [ioCopy_frame c.stdout stdin (freshStore ι) sid hne]
    rfl
  | some e =>
    have hcopy : (ioCopy c.stdout stdin (freshStore ι)).2 = some e :=
      he.trans hce
    rw [Executor_fail_some c ctx stdin outW errW (freshStore ι) e sid hcopy hs]
    dsimp only
    refine ⟨?_, ?_, rfl⟩
    · rw [Store.update_other _ _ _ _ (fun h => hne h.symm), hc]
      rfl
    · rw [Store.update_self,
        ioCopy_frame c.stdout stdin (freshStore ι) sid hne]
      rfl

/-- Claim C9: two executions on the same input script, each against its own
fresh writable destinations (over possibly different handle types), leave
byte-identical contents in their destinations and return the same
outcome. -/
theorem C9_deterministic {ι κ : Type} [DecidableEq ι] [DecidableEq κ]
    (c1 : command ι) (c2 : command κ) (ctx1 ctx2 : Context)
    (stdin : List ReadStep) (o1 w1 : ι) (o2 w2 : κ) (s1 : ι) (s2 : κ)
    (h1 : c1.stderr = some s1) (h2 : c2.stderr = some s2)
    (hn1 : s1 ≠ c1.stdout) (hn2 : s2 ≠ c2.stdout) :
    ((c1.Executor ctx1 stdin o1 w1 (freshStore ι)).1 c1.stdout).content =
        ((c2.Executor ctx2 stdin o2 w2 (freshStore κ)).1 c2.stdout).content ∧
      ((c1.Executor ctx1 stdin o1 w1 (freshStore ι)).1 s1).content =
        ((c2.Executor ctx2 stdin o2 w2 (freshStore κ)).1 s2).content ∧
      (c1.Executor ctx1 stdin o1 w1 (freshStore ι)).2 =
        (c2.Executor ctx2 stdin o2 w2 (freshStore κ)).2 := by
  obtain ⟨a1, b1, d1⟩ := Executor_fresh_char c1 ctx1 stdin o1 w1 s1 h1 hn1
  obtain ⟨a2, b2, d2⟩ := Executor_fresh_char c2 ctx2 stdin o2 w2 s2 h2 hn2
  exact ⟨a1.trans a2.symm, b1.trans b2.symm, d1.trans d2.symm⟩

/-- Witness for C9: the same script run over `Nat` handles and over `Bool`
handles, with different ignored parameters and contexts, agrees on both
destinations and on the outcome. -/
theorem C9_witness :
    (((Capture 0 (some 1) : command Nat).Executor ⟨false⟩ stepsBad 2 3
            (freshStore Nat)).1 0).content =
        (((Capture true (some false) : command Bool).Executor ⟨true⟩ stepsBad
            false true (freshStore Bool)).1 true).content ∧
      (((Capture 0 (some 1) : command Nat).Executor ⟨false⟩ stepsBad 2 3
            (freshStore Nat)).1 1).content =
        (((Capture true (some false) : command Bool).Executor ⟨true⟩ stepsBad
            false true (freshStore Bool)).1 false).content ∧
      ((Capture 0 (some 1) : command Nat).Executor ⟨false⟩ stepsBad 2 3
            (freshStore Nat)).2 =
        ((Capture true (some false) : command Bool).Executor ⟨true⟩ stepsBad
            false true (freshStore Bool)).2 :=
  C9_deterministic (Capture 0 (some 1)) (Capture true (some false)) ⟨false⟩
    ⟨true⟩ stepsBad 2 3 false true 1 false rfl rfl (by decide) (by decide)

/-- Counterexample to claim C4 as stated: with the ambient context
cancelled for the whole execution, the transfer is not aborted — the copy
runs to completion, no diagnostic line is written, and success is
returned. -/
theorem C4_counterexample :
    ((Capture 0 (some 1) : command Nat).Executor ⟨true⟩ stepsOk 2 3
          (freshStore Nat)).2 = none ∧
      (((Capture 0 (some 1) : command Nat).Executor ⟨true⟩ stepsOk 2 3
          (freshStore Nat)).1 0).content = [104, 105, 33] ∧
      (((Capture 0 (some 1) : command Nat).Executor ⟨true⟩ stepsOk 2 3
          (freshStore Nat)).1 1).content = [] := by
  decide

/-- Claim C4 as amended: the executor never consults the ambient context —
cancelled and uncancelled contexts yield identical executions — and a
cancellation failure is surfaced through the standard failure path (one
diagnostic line to the error destination, original failure returned)
exactly when the cancellation manifests as a failure of the input read or
of a destination write. -/
theorem C4_amended_context_ignored {ι : Type} [DecidableEq ι]
    (c : command ι) (ctx ctx2 : Context) (stdin : List ReadStep)
    (outW errW : ι) (store : Store ι) (e : List Byte) (sid : ι)
    (hcopy : (ioCopy c.stdout stdin store).2 = some e)
    (hs : c.stderr = some sid)
    (hne : sid ≠ c.stdout)
    (hplan : (store sid).plan = []) :
    c.Executor ctx stdin outW errW store =
        c.Executor ctx2 stdin outW errW store ∧
      ((c.Executor ctx stdin outW errW store).1 sid).content =
        (store sid).content ++ diagBytes e ∧
      (c.Executor ctx stdin outW errW store).2 = some e := by
  refine ⟨rfl, ?_, ?_⟩
  · rw [Executor_fail_some c ctx stdin outW errW store e sid hcopy hs]
    dsimp only
    rw [Store.update_self, ioCopy_frame c.stdout stdin store sid hne]
    unfold WriterState.write
    rw [hplan]
  · rw [Executor_fail_some c ctx stdin outW errW store e sid hcopy hs]

/-- Witness for the amended C4: the read failure of `stepsBad` stands for a
cancellation surfacing as a read error; a cancelled and an uncancelled
context give the same execution, with the diagnostic line written and the
failure returned. -/
theorem C4_amended_witness :
    (Capture 0 (some 1) : command Nat).Executor ⟨true⟩ stepsBad 2 3
          (freshStore Nat) =
        (Capture 0 (some 1) : command Nat).Executor ⟨false⟩ stepsBad 2 3
          (freshStore Nat) ∧
      (((Capture 0 (some 1) : command Nat).Executor ⟨true⟩ stepsBad 2 3
          (freshStore Nat)).1 1).content =
        (freshStore Nat 1).content ++ diagBytes [98, 111, 111, 109] ∧
      ((Capture 0 (some 1) : command Nat).Executor ⟨true⟩ stepsBad 2 3
          (freshStore Nat)).2 = some [98, 111, 111, 109] :=
  C4_amended_context_ignored (Capture 0 (some 1)) ⟨true⟩ ⟨false⟩ stepsBad 2 3
    (freshStore Nat) [98, 111, 111, 109] 1 (by decide) rfl (by decide) rfl

end YCapture
